import Mathlib

/-!
Verification development for the `time_tracker` repository.

Shallow embedding of the core logic:
* `normalization.py` — `normalize_window_title` and `_strip_tab_count`
  (the regex substitutions are embedded as executable maximal-munch
  scanners, which coincide with Python's leftmost greedy matching for
  these particular patterns);
* `collector.py` — the Segmenter / flush state machine
  (`_create_or_extend_event`, `sample_once`, `flush`, `_flush_locked`,
  `_matches`, `WindowsIdleDetector.is_idle`);
* `db.py` — `update_event` over a list model of the `activity_events`
  table;
* `webapp.py` — `update_event_endpoint`, `_normalize_process_name`,
  `_build_project_lookup`, `_resolve_project`, and the project branch
  of `overview`.

Timestamps are embedded as natural numbers; the whitespace classes of
Python's `str.strip` and `\s` are embedded at their ASCII core.
-/

/-- ASCII core of Python's whitespace class (used by `str.strip()` and
by `\s` in the regular expressions of `normalization.py`). -/
def isPySpace (c : Char) : Bool :=
  c = ' ' || c = '\t' || c = '\n' || c = '\r' || c = '\x0b' || c = '\x0c'

/-- Python `str.lstrip()` on a character list. -/
def pyLstrip (l : List Char) : List Char := l.dropWhile isPySpace

/-- Python `str.rstrip()` on a character list. -/
def pyRstrip (l : List Char) : List Char :=
  (l.reverse.dropWhile isPySpace).reverse

/-- Python `str.strip()` on a character list. -/
def pyStrip (l : List Char) : List Char := pyRstrip (pyLstrip l)

/-- Python `str.strip(chars)` / `str.rstrip(chars)` building block:
drop from the right every character contained in `set`. -/
def pyRstripSet (set : List Char) (l : List Char) : List Char :=
  (l.reverse.dropWhile (fun c => set.contains c)).reverse

/-- Python `str.strip(chars)`: drop the characters of `set` from both
ends. -/
def pyStripSet (set : List Char) (l : List Char) : List Char :=
  pyRstripSet set (l.dropWhile (fun c => set.contains c))

/-- Python `str.lower()` at its ASCII core (kernel-reducible, unlike
`String.toLower`). -/
def pyLower (s : String) : String := String.mk (s.toList.map Char.toLower)

/-- Match a literal word case-insensitively as a prefix of `l`
(`re.IGNORECASE`); on success return the unmatched remainder. -/
def dropCi : List Char → List Char → Option (List Char)
  | [], l => some l
  | _ :: _, [] => none
  | p :: ps, c :: cs => if c.toLower = p.toLower then dropCi ps cs else none

/-- `\s+` of the tab-count pattern: require at least one whitespace
character, consume the maximal run (Python's greedy `\s+` cannot
backtrack here because every continuation starts with a
non-whitespace literal). -/
def reqWs : List Char → Option (List Char)
  | [] => none
  | c :: rest => if isPySpace c then some (rest.dropWhile isPySpace) else none

/-- `\d+` of the tab-count pattern: at least one digit, maximal run. -/
def reqDigits : List Char → Option (List Char)
  | [] => none
  | c :: rest => if c.isDigit then some (rest.dropWhile Char.isDigit) else none

/-- One attempted match of `_EXTRA_TAB_COUNT_PATTERN`
(`\s+and\s+\d+\s+more\s+pages?`, `re.IGNORECASE`) at the head of `l`;
on success return the remainder after the greedy match. -/
def matchTabCount (l : List Char) : Option (List Char) :=
  (reqWs l).bind fun r1 =>
  (dropCi ['a', 'n', 'd'] r1).bind fun r2 =>
  (reqWs r2).bind fun r3 =>
  (reqDigits r3).bind fun r4 =>
  (reqWs r4).bind fun r5 =>
  (dropCi ['m', 'o', 'r', 'e'] r5).bind fun r6 =>
  (reqWs r6).bind fun r7 =>
  (dropCi ['p', 'a', 'g', 'e'] r7).bind fun r8 =>
  some (match r8 with
        | c :: rest => if c.toLower = 's' then rest else r8
        | [] => r8)

/-- `re.sub` of the tab-count pattern with empty replacement: scan left
to right, remove every (greedy, leftmost) match.  Fuelled so that the
kernel can evaluate it; `fuel = l.length` always suffices because every
step consumes at least one character. -/
def stripTabCountGo : Nat → List Char → List Char
  | 0, l => l
  | _ + 1, [] => []
  | fuel + 1, c :: rest =>
    match matchTabCount (c :: rest) with
    | some rem => stripTabCountGo fuel rem
    | none => c :: stripTabCountGo fuel rest

/-- `_EXTRA_TAB_COUNT_PATTERN.sub("", value)`. -/
def subTabCount (l : List Char) : List Char := stripTabCountGo l.length l

/-- `_strip_tab_count` from `normalization.py`: remove every tab-count
match, then `strip(" -|")`. -/
def strip_tab_count (l : List Char) : List Char :=
  pyStripSet [' ', '-', '|'] (subTabCount l)

/-- `re.sub(r"\s{2,}", " ", s)`: replace every maximal run of two or
more whitespace characters by a single space (a lone whitespace
character is kept as-is).  Fuelled; `fuel = l.length` suffices. -/
def collapseWsGo : Nat → List Char → List Char
  | 0, l => l
  | _ + 1, [] => []
  | fuel + 1, c :: rest =>
    if isPySpace c then
      match rest with
      | [] => [c]
      | d :: _ =>
        if isPySpace d then ' ' :: collapseWsGo fuel (rest.dropWhile isPySpace)
        else c :: collapseWsGo fuel rest
    else c :: collapseWsGo fuel rest

/-- `re.sub(r"\s{2,}", " ", s)` at default fuel. -/
def collapseWs (l : List Char) : List Char := collapseWsGo l.length l

/-- `_BROWSER_SUFFIXES` from `normalization.py` (keys are lowercase
executable names, values the suffix tuples). -/
def BROWSER_SUFFIXES : List (String × List String) :=
  [("msedge.exe", [" - Microsoft Edge"]),
   ("chrome.exe", [" - Google Chrome"]),
   ("firefox.exe", [" - Mozilla Firefox"]),
   ("brave.exe", [" - Brave"]),
   ("opera.exe", [" - Opera"])]

/-- The `for suffix in suffixes: if normalized.endswith(suffix): ...
break` loop: strip the first matching trailing suffix, then
`rstrip(" -")`. -/
def stripOneSuffix : List String → List Char → List Char
  | [], l => l
  | s :: rest, l =>
    if s.toList.isSuffixOf l then
      pyRstripSet [' ', '-'] (l.take (l.length - s.toList.length))
    else stripOneSuffix rest l

/-- Empty cleaned string becomes an absent result (`normalized or
None`). -/
def emptyToNone (l : List Char) : Option String :=
  if l.isEmpty then none else some (String.mk l)

/-- `normalize_window_title` from `normalization.py`.  Python's falsy
test `if not window_title` covers both `None` and the empty string,
likewise `if not process_name`; on an absent/empty process the function
returns the merely stripped title early. -/
def normalize_window_title (process_name : Option String)
    (window_title : Option String) : Option String :=
  match window_title with
  | none => none
  | some t =>
    if t = "" then none
    else
      let normalized := pyStrip t.toList
      match process_name with
      | none => emptyToNone normalized
      | some p =>
        if p = "" then emptyToNone normalized
        else
          let normalized :=
            match BROWSER_SUFFIXES.lookup (pyLower p) with
            | some suffixes => stripOneSuffix suffixes normalized
            | none => normalized
          let normalized := strip_tab_count normalized
          let normalized := pyStrip (collapseWs normalized)
          emptyToNone normalized

/-! ## Collector state machine (`collector.py`) -/

/-- `ActivityEvent` from `models.py` (timestamps as naturals). -/
structure ActivityEvent where
  start_time : Nat
  end_time : Nat
  process_name : Option String
  window_title : Option String
  is_idle : Bool
deriving Repr, DecidableEq

/-- Signed duration of an event in seconds. -/
def ActivityEvent.duration (e : ActivityEvent) : Int :=
  (e.end_time : Int) - (e.start_time : Int)

/-- `CollectorState` from `collector.py`. -/
structure CollectorState where
  current_event : Option ActivityEvent
  last_flush_time : Nat
deriving Repr, DecidableEq

/-- The mutable pieces of `ActivityCollector`: segmenter state, the
`_pending` buffer, and the rows so far persisted through
`insert_events`. -/
structure Collector where
  state : CollectorState
  pending : List ActivityEvent
  persisted : List ActivityEvent
deriving Repr, DecidableEq

/-- `ActivityCollector._matches`: exact (null-aware) equality of the
`(is_idle, process_name, window_title)` triple. -/
def eventMatches (event : ActivityEvent) (process_name window_title : Option String)
    (is_idle : Bool) : Bool :=
  event.is_idle == is_idle
    && event.process_name == process_name
    && event.window_title == window_title

/-- `ActivityCollector._create_or_extend_event`. -/
def create_or_extend_event (c : Collector) (timestamp : Nat)
    (process_name window_title : Option String) (is_idle : Bool) : Collector :=
  match c.state.current_event with
  | some current =>
    if eventMatches current process_name window_title is_idle then
      { c with state.current_event := some { current with end_time := timestamp } }
    else
      { c with
          pending := c.pending ++ [{ current with end_time := timestamp }],
          state.current_event :=
            some ⟨timestamp, timestamp, process_name, window_title, is_idle⟩ }
  | none =>
    { c with
        state.current_event :=
          some ⟨timestamp, timestamp, process_name, window_title, is_idle⟩ }

/-- Outcome of the `GetLastInputInfo` query inside
`WindowsIdleDetector.milliseconds_since_input`: either the elapsed
milliseconds or a raised `WinError`. -/
inductive IdleProbe where
  | ok (idle_ms : Nat)
  | failure
deriving Repr, DecidableEq

/-- `WindowsIdleDetector.is_idle`: on a probe failure the exception is
caught, logged, and `False` ("assume not idle") is returned. -/
def is_idle_checked (probe : IdleProbe) (threshold_ms : Nat) : Bool :=
  match probe with
  | .ok idle_ms => threshold_ms ≤ idle_ms
  | .failure => false

/-- Outcome of `WindowsActiveWindowProbe.get_active_window`: either no
foreground window could be queried (`GetForegroundWindow` returned a
null handle) or a window with its (possibly absent) process name and
stripped title. -/
inductive WindowProbe where
  | noWindow
  | window (process_name : Option String) (window_title : Option String)
deriving Repr, DecidableEq

/-- `get_active_window` collapses the failure case to `(None, None)`. -/
def get_active_window : WindowProbe → Option String × Option String
  | .noWindow => (none, none)
  | .window pn wt => (pn, wt)

/-- `ActivityCollector.sample_once`, with the two probes supplied as
inputs. -/
def sample_once (c : Collector) (now : Nat) (idle_probe : IdleProbe)
    (threshold_ms : Nat) (win : WindowProbe) : Collector :=
  if is_idle_checked idle_probe threshold_ms then
    create_or_extend_event c now none none true
  else
    let pw := get_active_window win
    let title := normalize_window_title pw.1 pw.2
    create_or_extend_event c now pw.1 title false

/-- Result of a flush: the collector state after the call together with
whether `insert_events` raised (and the exception propagated to the
caller). -/
structure FlushResult where
  collector : Collector
  storeError : Bool
deriving Repr, DecidableEq

/-- `ActivityCollector._flush_locked`, with the success of the batched
`insert_events` write supplied as `insertOk`.  On failure the buffer is
not cleared, `last_flush_time` is not reset, and the exception
propagates. -/
def flush_locked (c : Collector) (now : Nat) (insertOk : Bool) : FlushResult :=
  if c.pending = [] then ⟨c, false⟩
  else if insertOk then
    ⟨{ c with
         persisted := c.persisted ++ c.pending,
         pending := [],
         state.last_flush_time := now }, false⟩
  else ⟨c, true⟩

/-- `ActivityCollector.flush`. -/
def flush (c : Collector) (force : Bool) (now : Nat) (insertOk : Bool) : FlushResult :=
  let c :=
    if force then
      match c.state.current_event with
      | some current =>
        { c with
            pending := c.pending ++ [{ current with end_time := now }],
            state.current_event := none }
      | none => c
    else c
  if force || !(c.pending = []) then flush_locked c now insertOk else ⟨c, false⟩

/-- One observation fed to the segmenter. -/
structure Sample where
  timestamp : Nat
  process_name : Option String
  window_title : Option String
  is_idle : Bool
deriving Repr, DecidableEq

/-- Fold a list of observations through `_create_or_extend_event`. -/
def runSamples (c : Collector) (samples : List Sample) : Collector :=
  samples.foldl
    (fun c s => create_or_extend_event c s.timestamp s.process_name s.window_title s.is_idle)
    c

/-- A freshly constructed collector: no current event, empty buffer,
nothing persisted (`last_flush_time` is whatever `datetime.now()`
returned at construction). -/
def initialCollector (last_flush : Nat) : Collector :=
  ⟨⟨none, last_flush⟩, [], []⟩

/-- Does the current open event match the observed triple
(`False` when there is no current event)? -/
def currentMatches (c : Collector) (process_name window_title : Option String)
    (is_idle : Bool) : Bool :=
  match c.state.current_event with
  | some current => eventMatches current process_name window_title is_idle
  | none => false

/-- The closed event emitted when a non-matching sample at time `t`
supersedes the current event (empty when no event is open). -/
def closedAt (c : Collector) (t : Nat) : List ActivityEvent :=
  match c.state.current_event with
  | some current => [{ current with end_time := t }]
  | none => []

/-- `events` tile the interval from `a` to `b`: consecutive events meet
exactly (each `end_time` is the next `start_time`), the first starts at
`a` and the last ends at `b`; an empty list tiles only a degenerate
interval. -/
def tiles (a b : Nat) : List ActivityEvent → Prop
  | [] => a = b
  | e :: es => e.start_time = a ∧ tiles e.end_time b es

instance : ∀ a b es, Decidable (tiles a b es) := fun a b es => by
  induction es generalizing a with
  | nil => exact decEq a b
  | cons e es ih => exact @instDecidableAnd _ _ (decEq e.start_time a) (ih e.end_time)

/-! ## Event store and update endpoint (`db.py`, `webapp.py`) -/

/-- A row of the `activity_events` table. -/
structure EventRow where
  id : Nat
  start_time : Nat
  end_time : Nat
  process_name : Option String
  window_title : Option String
  is_idle : Bool
deriving Repr, DecidableEq

/-- The payload of `PATCH /api/events/{id}` after pydantic's
`model_dump(exclude_unset=True)`: each field is either absent or
supplied.  The two string fields are nullable when supplied (the
`_UNSET` sentinel of `db.update_event` distinguishes "absent" from
"supplied as null"); timestamps and `is_idle` are modelled as
supplied-with-value or absent (`db.update_event` skips them when
null). -/
structure EventUpdate where
  start_time : Option Nat
  end_time : Option Nat
  process_name : Option (Option String)
  window_title : Option (Option String)
  is_idle : Option Bool
deriving Repr, DecidableEq

/-- The payload with no field supplied at all. -/
def EventUpdate.empty : EventUpdate := ⟨none, none, none, none, none⟩

/-- Number of entries the `fields` list of `db.update_event` receives. -/
def EventUpdate.numFields (u : EventUpdate) : Nat :=
  (if u.start_time.isSome then 1 else 0)
    + (if u.end_time.isSome then 1 else 0)
    + (if u.process_name.isSome then 1 else 0)
    + (if u.window_title.isSome then 1 else 0)
    + (if u.is_idle.isSome then 1 else 0)

/-- Apply the supplied fields of the payload to one row (the `SET`
clause of the generated `UPDATE`). -/
def applyUpdate (u : EventUpdate) (r : EventRow) : EventRow :=
  { r with
      start_time := u.start_time.getD r.start_time,
      end_time := u.end_time.getD r.end_time,
      process_name := u.process_name.getD r.process_name,
      window_title := u.window_title.getD r.window_title,
      is_idle := u.is_idle.getD r.is_idle }

/-- `db.update_event` over the list model of the table.  With no field
supplied it returns before issuing any `UPDATE`; otherwise it updates
the matching rows and raises `ValueError` exactly when the `UPDATE`
matched zero rows. -/
def update_event (db : List EventRow) (event_id : Nat) (u : EventUpdate) :
    Except Unit (List EventRow) :=
  if u.numFields = 0 then .ok db
  else
    let updated := db.map fun r => if r.id = event_id then applyUpdate u r else r
    if db.countP (fun r => r.id == event_id) = 0 then .error ()
    else .ok updated

/-- Errors surfaced by `update_event_endpoint` (`HTTPException` 400 and
404). -/
inductive ApiError where
  | validation
  | notFound
deriving Repr, DecidableEq

/-- `update_event_endpoint` from `webapp.py`: the
`end_time <= start_time` check runs only when both bounds are supplied
in the same request; then `db.update_event` runs, a `ValueError`
becomes 404, and the updated row is re-read (404 if absent). -/
def update_event_endpoint (db : List EventRow) (event_id : Nat) (u : EventUpdate) :
    Except ApiError (List EventRow × EventRow) :=
  let validated : Except ApiError Unit :=
    match u.start_time, u.end_time with
    | some st, some et => if et ≤ st then .error .validation else .ok ()
    | _, _ => .ok ()
  match validated with
  | .error e => .error e
  | .ok _ =>
    match update_event db event_id u with
    | .error _ => .error .notFound
    | .ok db' =>
      match db'.find? (fun r => r.id == event_id) with
      | none => .error .notFound
      | some row => .ok (db', row)

/-! ## Project resolution (`webapp.py`) -/

/-- A row of the `project_mappings` table as consumed by
`_build_project_lookup`. -/
structure MappingRow where
  process_name : Option String
  window_title : Option String
  project_name : String
deriving Repr, DecidableEq

/-- Key/value pairs of the Python dict built by
`_build_project_lookup` (`get` semantics only). -/
abbrev Lookup := List ((Option String × Option String) × String)

/-- `dict.get`. -/
def lookupGet (d : Lookup) (k : Option String × Option String) : Option String :=
  (List.find? (fun e => e.1 == k) d).map (fun e => e.2)

/-- `dict.__setitem__`: overwrite the value when the key is present,
append otherwise. -/
def dictInsert (d : Lookup) (k : Option String × Option String) (v : String) : Lookup :=
  if List.any d (fun e => e.1 == k) then
    List.map (fun e => if e.1 == k then (k, v) else e) d
  else d ++ [(k, v)]

/-- `_normalize_process_name` from `webapp.py`: strip, lowercase, empty
becomes absent. -/
def normalize_process_name (value : Option String) : Option String :=
  match value with
  | none => none
  | some s =>
    let lowered := pyLower (String.mk (pyStrip s.toList))
    if lowered = "" then none else some lowered

/-- The `window_title if window_title else None` key: empty titles
collapse to absent. -/
def titleKey (wt : Option String) : Option String :=
  match wt with
  | some t => if t = "" then none else some t
  | none => none

/-- `_build_project_lookup`: rows with a blank project name are
skipped, the rest are inserted keyed by
`(normalized process, title)`. -/
def build_project_lookup (rows : List MappingRow) : Lookup :=
  rows.foldl
    (fun lookup row =>
      let process_key := normalize_process_name row.process_name
      let title_key := titleKey row.window_title
      let project_name := String.mk (pyStrip row.project_name.toList)
      if project_name = "" then lookup
      else dictInsert lookup (process_key, title_key) project_name)
    []

/-- The `for key in candidates: ... if project: return project` loop
of `_resolve_project`: return the first truthy hit, skipping keys that
are missing or bound to a falsy (empty) project name. -/
def firstTruthy (lookup : Lookup) : List (Option String × Option String) → Option String
  | [] => none
  | key :: rest =>
    match lookupGet lookup key with
    | some project => if project = "" then firstTruthy lookup rest else some project
    | none => firstTruthy lookup rest

/-- `_resolve_project`: try the three candidate keys in order. -/
def resolve_project (lookup : Lookup) (process_name window_title : Option String) :
    Option String :=
  let process_key := normalize_process_name process_name
  let title_key := titleKey window_title
  firstTruthy lookup [(process_key, title_key), (process_key, none), (none, title_key)]

/-- The project computation of `overview` for one aggregation bucket
(webapp.py lines 185-190): idle buckets are never resolved. -/
def bucket_project (lookup : Lookup) (process_name window_title : Option String)
    (is_idle : Bool) : Option String :=
  if is_idle then none else resolve_project lookup process_name window_title

/-! ## Helper lemmas about stripping -/

lemma pyLstrip_pyRstrip_pyLstrip (l : List Char) :
    pyLstrip (pyRstrip (pyLstrip l)) = pyRstrip (pyLstrip l) := by
  show List.dropWhile isPySpace (List.rdropWhile isPySpace (List.dropWhile isPySpace l))
      = List.rdropWhile isPySpace (List.dropWhile isPySpace l)
  have h1 : List.rdropWhile isPySpace (List.dropWhile isPySpace l)
      <+: List.dropWhile isPySpace l := List.rdropWhile_prefix _ _
  rw [List.dropWhile_eq_self_iff]
  intro hl
  have hlen : 0 < (List.dropWhile isPySpace l).length := lt_of_lt_of_le hl h1.length_le
  have hget := h1.getElem hl
  have h2 : List.dropWhile isPySpace (List.dropWhile isPySpace l)
      = List.dropWhile isPySpace l := List.dropWhile_idempotent _ _
  rw [List.dropWhile_eq_self_iff] at h2
  have h3 := h2 hlen
  rw [List.get_eq_getElem] at h3 ⊢
  rw [hget]
  exact h3

lemma pyStrip_idem (l : List Char) : pyStrip (pyStrip l) = pyStrip l := by
  show pyRstrip (pyLstrip (pyRstrip (pyLstrip l))) = pyRstrip (pyLstrip l)
  rw [pyLstrip_pyRstrip_pyLstrip]
  exact List.rdropWhile_idempotent _ _

lemma stripOneSuffix_nil (sfx : List String) : stripOneSuffix sfx [] = [] := by
  induction sfx with
  | nil => rfl
  | cons s rest ih =>
    by_cases h : s.toList.isSuffixOf ([] : List Char) <;>
      simp [stripOneSuffix, h, pyRstripSet, ih]

/-! ## Claim C3 -/

/-- C3 fails on the code: stripping exactly one trailing browser suffix
is not idempotent; a once-stripped Chrome title that still ends in
" - Google Chrome" is stripped again on a second pass. -/
theorem c3_counterexample :
    normalize_window_title (some "chrome.exe")
        (normalize_window_title (some "chrome.exe")
          (some "X - Google Chrome - Google Chrome"))
      ≠ normalize_window_title (some "chrome.exe")
          (some "X - Google Chrome - Google Chrome") := by decide

/-- C3 (amended): the title normalizer is idempotent whenever the
process name is absent or empty (the early-return path that only trims
the title); with a present process name idempotence can fail, both for
browser processes (suffix re-stripping) and for other processes
(tab-count removal can splice a fresh match). -/
theorem c3_amended_idempotent_without_process (p t : Option String)
    (hp : p = none ∨ p = some "") :
    normalize_window_title p (normalize_window_title p t)
      = normalize_window_title p t := by
  have hnorm : ∀ s : String, s ≠ "" →
      normalize_window_title p (some s) = emptyToNone (pyStrip s.toList) := by
    intro s hs
    rcases hp with h | h <;> subst h <;> simp [normalize_window_title, hs]
  cases t with
  | none => rfl
  | some s =>
    by_cases hs : s = ""
    · subst hs
      rcases hp with h | h <;> subst h <;> rfl
    · rw [hnorm s hs]
      cases hps : pyStrip s.toList with
      | nil => rfl
      | cons c cs =>
        have hne : emptyToNone (c :: cs) = some (String.mk (c :: cs)) := by
          simp [emptyToNone]
        have hmk : String.mk (c :: cs) ≠ "" := by
          intro h
          exact (List.cons_ne_nil c cs) (congrArg String.data h)
        rw [hne, hnorm (String.mk (c :: cs)) hmk,
          show (String.mk (c :: cs)).toList = c :: cs from rfl, ← hps, pyStrip_idem,
          hps, hne]

/-- Witness for the amended C3 at a concrete input. -/
theorem c3_amended_witness :
    normalize_window_title none (normalize_window_title none (some " hi "))
      = normalize_window_title none (some " hi ") :=
  c3_amended_idempotent_without_process none (some " hi ") (Or.inl rfl)

/-! ## Claim C7 -/

/-- The cleanup C7 claims `normalize` applies to every title regardless
of the process name (written from the claim's words): remove the
tab-count matches, collapse whitespace runs, trim, empty becomes
absent. -/
def c7_claimed_cleanup (t : String) : Option String :=
  emptyToNone (pyStrip (collapseWs (subTabCount t.toList)))

/-- C7 fails on the code: with an absent process name
`normalize_window_title` returns early with the merely trimmed title,
so the tab-count match survives and no whitespace collapsing happens,
contradicting "regardless of the process name (including an absent
process)". -/
theorem c7_counterexample :
    normalize_window_title none (some "Tab title and 3 more pages")
        = some "Tab title and 3 more pages"
      ∧ c7_claimed_cleanup "Tab title and 3 more pages" = some "Tab title"
      ∧ normalize_window_title none (some "Tab title and 3 more pages")
          ≠ c7_claimed_cleanup "Tab title and 3 more pages" := by
  refine ⟨by decide, by decide, by decide⟩

/-- The browser-suffix step of the pipeline (lookup the lowercased
process in the fixed table, strip one matching trailing suffix). -/
def browserStrip (p : String) (l : List Char) : List Char :=
  match BROWSER_SUFFIXES.lookup (pyLower p) with
  | some suffixes => stripOneSuffix suffixes l
  | none => l

/-- The amended C7, written from the amended claim's words: with a
present, non-empty process name the normalizer trims, applies the
browser-suffix step, removes every tab-count match, strips leading and
trailing spaces, hyphens and pipes, collapses whitespace runs of two or
more to one space, trims again, and returns absent when the cleaned
string is empty; with an absent or empty process name it only trims the
title. -/
def c7_amended_normalize (process_name window_title : Option String) : Option String :=
  match window_title with
  | none => none
  | some t =>
    match process_name with
    | none => emptyToNone (pyStrip t.toList)
    | some p =>
      if p = "" then emptyToNone (pyStrip t.toList)
      else
        emptyToNone (pyStrip (collapseWs (pyStripSet [' ', '-', '|']
          (subTabCount (browserStrip p (pyStrip t.toList))))))

/-- C7 (amended): `normalize_window_title` agrees everywhere with the
amended pipeline. -/
theorem c7_amended_normalize_eq (p t : Option String) :
    normalize_window_title p t = c7_amended_normalize p t := by
  cases t with
  | none => rfl
  | some s =>
    by_cases hs : s = ""
    · subst hs
      cases p with
      | none => rfl
      | some q =>
        by_cases hq : q = ""
        · subst hq; rfl
        · show none = c7_amended_normalize (some q) (some "")
          have hempty : browserStrip q ([] : List Char) = [] := by
            unfold browserStrip
            cases BROWSER_SUFFIXES.lookup (pyLower q) with
            | none => rfl
            | some sfx => exact stripOneSuffix_nil sfx
          have h1 : pyStrip (String.toList "") = [] := rfl
          simp only [c7_amended_normalize, if_neg hq, h1, hempty]
          rfl
    · cases p with
      | none => simp [normalize_window_title, c7_amended_normalize, hs]
      | some q =>
        by_cases hq : q = ""
        · subst hq
          simp [normalize_window_title, c7_amended_normalize, hs]
        · simp only [normalize_window_title, c7_amended_normalize, hs, hq,
            if_neg, browserStrip, strip_tab_count]
          cases BROWSER_SUFFIXES.lookup (pyLower q) <;> simp

/-! ## Helper lemmas about the segmenter -/

lemma runSamples_extend (pn wt : Option String) (idle : Bool) (ts : List Nat) :
    ∀ (c : Collector) (e : ActivityEvent),
      c.state.current_event = some e →
      e.process_name = pn → e.window_title = wt → e.is_idle = idle →
      runSamples c (ts.map fun t => ⟨t, pn, wt, idle⟩)
        = { c with
              state.current_event :=
                some { e with end_time := ts.foldl (fun _ t => t) e.end_time } } := by
  induction ts with
  | nil =>
    intro c e hc hp hw hi
    show c = { c with state.current_event := some { e with end_time := e.end_time } }
    cases c with
    | mk st pending persisted =>
      cases st with
      | mk cur lf =>
        simp only [CollectorState.current_event] at hc
        subst hc
        rfl
  | cons t ts ih =>
    intro c e hc hp hw hi
    have hm : eventMatches e pn wt idle = true := by
      simp [eventMatches, hp, hw, hi]
    have hstep : create_or_extend_event c t pn wt idle
        = { c with state.current_event := some { e with end_time := t } } := by
      unfold create_or_extend_event
      rw [hc]
      simp [hm]
    show runSamples (create_or_extend_event c t pn wt idle) (ts.map fun t => ⟨t, pn, wt, idle⟩) = _
    rw [hstep, ih _ { e with end_time := t } rfl hp hw hi]
    rfl

lemma create_or_extend_fresh (c : Collector) (pn wt : Option String) (idle : Bool)
    (t1 : Nat) (hstart : currentMatches c pn wt idle = false) :
    create_or_extend_event c t1 pn wt idle
      = { c with
            pending := c.pending ++ closedAt c t1,
            state.current_event := some ⟨t1, t1, pn, wt, idle⟩ } := by
  unfold create_or_extend_event closedAt
  unfold currentMatches at hstart
  cases hc : c.state.current_event with
  | none => simp
  | some cur =>
    rw [hc] at hstart
    have hs : eventMatches cur pn wt idle = false := hstart
    simp [hs]

/-! ## Claim C1 -/

/-- C1: feeding a run of samples with one identical
`(process_name, title, is_idle)` triple into the Segmenter (starting
from a state whose open event, if any, does not match the triple)
emits only the single closing of the previous open event; every further
matching sample merely advances the open event's `end_time`, so the
open event spans first-to-latest timestamp; and the first differing
sample closes exactly one event covering the whole run, with
`start_time` the first sample's timestamp and `end_time` the boundary
timestamp at which the state changed. -/
theorem c1_single_event_per_run (c : Collector) (pn wt : Option String) (idle : Bool)
    (t1 : Nat) (rest : List Nat) (t' : Nat) (pn' wt' : Option String) (idle' : Bool)
    (hstart : currentMatches c pn wt idle = false)
    (hdiff : ¬(pn' = pn ∧ wt' = wt ∧ idle' = idle)) :
    (runSamples c ((t1 :: rest).map fun t => ⟨t, pn, wt, idle⟩)).pending
        = c.pending ++ closedAt c t1
      ∧ (runSamples c ((t1 :: rest).map fun t => ⟨t, pn, wt, idle⟩)).state.current_event
          = some ⟨t1, rest.foldl (fun _ t => t) t1, pn, wt, idle⟩
      ∧ (create_or_extend_event (runSamples c ((t1 :: rest).map fun t => ⟨t, pn, wt, idle⟩))
            t' pn' wt' idle').pending
          = c.pending ++ closedAt c t1 ++ [⟨t1, t', pn, wt, idle⟩] := by
  have hrun : runSamples c ((t1 :: rest).map fun t => ⟨t, pn, wt, idle⟩)
      = { c with
            pending := c.pending ++ closedAt c t1,
            state.current_event :=
              some ⟨t1, rest.foldl (fun _ t => t) t1, pn, wt, idle⟩ } := by
    show runSamples (create_or_extend_event c t1 pn wt idle)
        (rest.map fun t => ⟨t, pn, wt, idle⟩) = _
    rw [create_or_extend_fresh c pn wt idle t1 hstart,
      runSamples_extend pn wt idle rest _ ⟨t1, t1, pn, wt, idle⟩ rfl rfl rfl rfl]
  have hm' : eventMatches ⟨t1, rest.foldl (fun _ t => t) t1, pn, wt, idle⟩ pn' wt' idle'
      = false := by
    rw [Bool.eq_false_iff]
    intro h
    simp only [eventMatches, Bool.and_eq_true, beq_iff_eq] at h
    exact hdiff ⟨h.1.2.symm, h.2.symm, h.1.1.symm⟩
  refine ⟨by rw [hrun], by rw [hrun], ?_⟩
  rw [hrun]
  unfold create_or_extend_event
  simp [hm']

/-- Witness for C1 at a concrete run. -/
theorem c1_witness :
    (runSamples (initialCollector 0) ([1, 2, 3].map fun t => ⟨t, some "a.exe", some "T", false⟩)).pending
        = (initialCollector 0).pending ++ closedAt (initialCollector 0) 1
      ∧ (runSamples (initialCollector 0)
            ([1, 2, 3].map fun t => ⟨t, some "a.exe", some "T", false⟩)).state.current_event
          = some ⟨1, [2, 3].foldl (fun _ t => t) 1, some "a.exe", some "T", false⟩
      ∧ (create_or_extend_event
            (runSamples (initialCollector 0)
              ([1, 2, 3].map fun t => ⟨t, some "a.exe", some "T", false⟩))
            4 none none true).pending
          = (initialCollector 0).pending ++ closedAt (initialCollector 0) 1
              ++ [⟨1, 4, some "a.exe", some "T", false⟩] :=
  c1_single_event_per_run (initialCollector 0) (some "a.exe") (some "T") false
    1 [2, 3] 4 none none true (by decide) (by decide)

/-! ## Claim C5 -/

/-- C5 fails on the code: when both probes fail (idle query raises, no
foreground window), `sample_once` still records an observation — the
triple `(None, None, False)` — which closes the open Chrome event
(its `end_time` is bumped to the sample time and it is moved to the
pending buffer) and opens a fresh event, contradicting "no observation
is recorded ... the currently open event is neither closed nor
modified". -/
theorem c5_counterexample :
    sample_once ⟨⟨some ⟨0, 10, some "chrome.exe", some "X", false⟩, 0⟩, [], []⟩
        20 .failure 300000 .noWindow
      = ⟨⟨some ⟨20, 20, none, none, false⟩, 0⟩,
         [⟨0, 20, some "chrome.exe", some "X", false⟩], []⟩ := by decide

/-- C5 (amended): an idle-probe failure is caught inside
`WindowsIdleDetector.is_idle` (no exception propagates; "not idle" is
returned) and the sampling step then proceeds as a normal non-idle
observation of whatever the window probe yields — a failed foreground
query contributes absent process and title — which is fed to the
Segmenter and may extend or supersede the open event. -/
theorem c5_amended_failure_is_not_idle (c : Collector) (now threshold_ms : Nat)
    (win : WindowProbe) :
    is_idle_checked .failure threshold_ms = false
      ∧ sample_once c now .failure threshold_ms win
          = create_or_extend_event c now (get_active_window win).1
              (normalize_window_title (get_active_window win).1 (get_active_window win).2)
              false :=
  ⟨rfl, rfl⟩

/-! ## Claim C6 -/

/-- C6 fails on the code: `_matches` compares process names with exact
string equality, so a sample whose process name differs from the open
event's only in letter case closes the event and opens a new one
instead of extending it. -/
theorem c6_counterexample :
    create_or_extend_event ⟨⟨some ⟨0, 10, some "Chrome.EXE", some "X", false⟩, 0⟩, [], []⟩
        20 (some "chrome.exe") (some "X") false
      = ⟨⟨some ⟨20, 20, some "chrome.exe", some "X", false⟩, 0⟩,
         [⟨0, 20, some "Chrome.EXE", some "X", false⟩], []⟩
    ∧ pyLower "Chrome.EXE" = pyLower "chrome.exe" :=
  ⟨by decide, by decide⟩

/-- C6 (amended): process-name identity in the Segmenter is exact
(case-sensitive) string equality on the stored-as-observed value: any
differing process name — including one differing only in letter case —
closes the current event at the sample timestamp and opens a new
event. -/
theorem c6_amended_case_sensitive_identity (c : Collector) (cur : ActivityEvent)
    (pn' : Option String) (ts : Nat)
    (hc : c.state.current_event = some cur) (hne : cur.process_name ≠ pn') :
    create_or_extend_event c ts pn' cur.window_title cur.is_idle
      = { c with
            pending := c.pending ++ [{ cur with end_time := ts }],
            state.current_event := some ⟨ts, ts, pn', cur.window_title, cur.is_idle⟩ } := by
  have hm : eventMatches cur pn' cur.window_title cur.is_idle = false := by
    rw [Bool.eq_false_iff]
    intro h
    simp only [eventMatches, Bool.and_eq_true, beq_iff_eq] at h
    exact hne h.1.2
  unfold create_or_extend_event
  rw [hc]
  simp [hm]

/-- Witness for the amended C6 at a concrete case-only difference. -/
theorem c6_amended_witness :
    create_or_extend_event ⟨⟨some ⟨0, 5, some "Notepad.EXE", none, false⟩, 3⟩, [], []⟩
        7 (some "notepad.exe") none false
      = ⟨⟨some ⟨7, 7, some "notepad.exe", none, false⟩, 3⟩,
         [⟨0, 7, some "Notepad.EXE", none, false⟩], []⟩ :=
  c6_amended_case_sensitive_identity
    ⟨⟨some ⟨0, 5, some "Notepad.EXE", none, false⟩, 3⟩, [], []⟩
    ⟨0, 5, some "Notepad.EXE", none, false⟩ (some "notepad.exe") 7 rfl (by decide)

/-! ## Helper lemmas about tiling -/

lemma tiles_snoc_end (p : List ActivityEvent) (e : ActivityEvent) (a b t : Nat)
    (h : tiles a b (p ++ [e])) : tiles a t (p ++ [{ e with end_time := t }]) := by
  induction p generalizing a with
  | nil => exact ⟨h.1, rfl⟩
  | cons q p ih => exact ⟨h.1, ih _ h.2⟩

lemma tiles_snoc (l : List ActivityEvent) (e : ActivityEvent) (a b : Nat)
    (h : tiles a b l) (hs : e.start_time = b) :
    tiles a e.end_time (l ++ [e]) := by
  induction l generalizing a with
  | nil =>
    have : a = b := h
    exact ⟨by rw [hs, this], rfl⟩
  | cons q l ih => exact ⟨h.1, ih _ h.2⟩

lemma tiles_sum (l : List ActivityEvent) : ∀ (a b : Nat), tiles a b l →
    (l.map ActivityEvent.duration).sum = (b : Int) - (a : Int) := by
  induction l with
  | nil =>
    intro a b h
    have : a = b := h
    subst this
    simp
  | cons e l ih =>
    intro a b h
    obtain ⟨h1, h2⟩ := h
    rw [List.map_cons, List.sum_cons, ih _ _ h2]
    rw [ActivityEvent.duration, h1]
    ring

/-- Invariant of the sampling fold: starting from a state whose buffer
plus open event tiles `[a, current end]` and with nothing persisted
along the way, every further observation preserves the tiling and
persists nothing. -/
lemma runSamples_chain (samples : List Sample) :
    ∀ (c : Collector) (e : ActivityEvent) (a : Nat),
      c.state.current_event = some e →
      tiles a e.end_time (c.pending ++ [e]) →
      ∃ e', (runSamples c samples).state.current_event = some e'
        ∧ tiles a e'.end_time ((runSamples c samples).pending ++ [e'])
        ∧ (runSamples c samples).persisted = c.persisted := by
  induction samples with
  | nil => exact fun c e a hc ht => ⟨e, hc, ht, rfl⟩
  | cons s ss ih =>
    intro c e a hc ht
    have hcons : runSamples c (s :: ss)
        = runSamples (create_or_extend_event c s.timestamp s.process_name
            s.window_title s.is_idle) ss := rfl
    by_cases hm : eventMatches e s.process_name s.window_title s.is_idle
    · have hstep : create_or_extend_event c s.timestamp s.process_name s.window_title s.is_idle
          = { c with state.current_event := some { e with end_time := s.timestamp } } := by
        unfold create_or_extend_event
        rw [hc]
        simp [hm]
      rw [hcons, hstep]
      exact ih { c with state.current_event := some { e with end_time := s.timestamp } }
        { e with end_time := s.timestamp } a rfl (tiles_snoc_end _ _ _ _ _ ht)
    · have hstep : create_or_extend_event c s.timestamp s.process_name s.window_title s.is_idle
          = { c with
                pending := c.pending ++ [{ e with end_time := s.timestamp }],
                state.current_event :=
                  some ⟨s.timestamp, s.timestamp, s.process_name, s.window_title, s.is_idle⟩ } := by
        unfold create_or_extend_event
        rw [hc]
        simp [hm]
      rw [hcons, hstep]
      refine ih
        { c with
            pending := c.pending ++ [{ e with end_time := s.timestamp }],
            state.current_event :=
              some ⟨s.timestamp, s.timestamp, s.process_name, s.window_title, s.is_idle⟩ }
        ⟨s.timestamp, s.timestamp, s.process_name, s.window_title, s.is_idle⟩ a rfl ?_
      exact tiles_snoc _ _ _ _ (tiles_snoc_end _ _ _ _ _ ht) rfl

/-- A successful forced flush closes the open event at the flush time,
persists the whole buffer in order, clears it, and resets the flush
timestamp. -/
lemma flush_force_ok (c : Collector) (e : ActivityEvent) (T : Nat)
    (hc : c.state.current_event = some e) :
    flush c true T true
      = ⟨⟨⟨none, T⟩, [], c.persisted ++ (c.pending ++ [{ e with end_time := T }])⟩, false⟩ := by
  unfold flush flush_locked
  rw [hc]
  simp

/-! ## Claim C2 -/

/-- C2: for every run of one or more observed samples starting from a
fresh collector, a successful forced flush closes the open event at the
flush time, enqueues and persists everything; the persisted events tile
the interval from the first sample's timestamp to the flush time (each
closed event's `end_time` is the next event's `start_time`, zero gaps
or overlaps) and their summed signed durations equal the elapsed wall
time of the run. -/
theorem c2_forced_flush_preserves_time (s0 : Sample) (rest : List Sample) (T lf : Nat) :
    (flush (runSamples (initialCollector lf) (s0 :: rest)) true T true).storeError = false
      ∧ (flush (runSamples (initialCollector lf) (s0 :: rest)) true T true).collector.pending
          = []
      ∧ (flush (runSamples (initialCollector lf) (s0 :: rest)) true T
            true).collector.state.current_event = none
      ∧ tiles s0.timestamp T
          (flush (runSamples (initialCollector lf) (s0 :: rest)) true T true).collector.persisted
      ∧ ((flush (runSamples (initialCollector lf) (s0 :: rest)) true T
            true).collector.persisted.map ActivityEvent.duration).sum
          = (T : Int) - (s0.timestamp : Int) := by
  have hcons : runSamples (initialCollector lf) (s0 :: rest)
      = runSamples
          ⟨⟨some ⟨s0.timestamp, s0.timestamp, s0.process_name, s0.window_title, s0.is_idle⟩, lf⟩,
           [], []⟩ rest := rfl
  obtain ⟨e', hcur, htiles, hpers⟩ :=
    runSamples_chain rest
      ⟨⟨some ⟨s0.timestamp, s0.timestamp, s0.process_name, s0.window_title, s0.is_idle⟩, lf⟩,
       [], []⟩
      ⟨s0.timestamp, s0.timestamp, s0.process_name, s0.window_title, s0.is_idle⟩
      s0.timestamp rfl ⟨rfl, rfl⟩
  rw [hcons, flush_force_ok _ e' T hcur, hpers]
  refine ⟨rfl, rfl, rfl, ?_, ?_⟩
  · exact tiles_snoc_end _ _ _ _ _ htiles
  · exact tiles_sum _ _ _ (tiles_snoc_end _ _ _ _ _ htiles)

/-! ## Claim C8 -/

/-- C8: when the batched write of a flush fails, the exception
propagates to the caller (`storeError`), the buffered events — together
with the force-closed open event, when `force` is set — remain in the
pending buffer for the next attempt, `last_flush_time` is not reset,
and nothing is persisted. -/
theorem c8_failed_flush_retains_buffer (c : Collector) (force : Bool) (now : Nat)
    (h : c.pending ≠ [] ∨ (force = true ∧ c.state.current_event ≠ none)) :
    (flush c force now false).storeError = true
      ∧ (flush c force now false).collector.pending
          = c.pending ++ (if force then closedAt c now else [])
      ∧ (flush c force now false).collector.state.last_flush_time
          = c.state.last_flush_time
      ∧ (flush c force now false).collector.persisted = c.persisted := by
  unfold flush flush_locked closedAt
  cases force with
  | false =>
    rcases h with h | ⟨hf, _⟩
    · simp [h]
    · cases hf
  | true =>
    cases hc : c.state.current_event with
    | none =>
      rcases h with h | ⟨_, hcur⟩
      · simp [h]
      · exact absurd hc hcur
    | some cur => simp

/-- Witness for C8 at a concrete state. -/
theorem c8_witness :
    (flush ⟨⟨some ⟨4, 6, none, none, true⟩, 2⟩, [⟨1, 4, some "a.exe", none, false⟩], []⟩
        true 9 false).storeError = true
      ∧ (flush ⟨⟨some ⟨4, 6, none, none, true⟩, 2⟩, [⟨1, 4, some "a.exe", none, false⟩], []⟩
            true 9 false).collector.pending
          = [⟨1, 4, some "a.exe", none, false⟩]
              ++ (if true then
                    closedAt
                      ⟨⟨some ⟨4, 6, none, none, true⟩, 2⟩,
                       [⟨1, 4, some "a.exe", none, false⟩], []⟩ 9
                  else [])
      ∧ (flush ⟨⟨some ⟨4, 6, none, none, true⟩, 2⟩, [⟨1, 4, some "a.exe", none, false⟩], []⟩
            true 9 false).collector.state.last_flush_time = 2
      ∧ (flush ⟨⟨some ⟨4, 6, none, none, true⟩, 2⟩, [⟨1, 4, some "a.exe", none, false⟩], []⟩
            true 9 false).collector.persisted = [] :=
  c8_failed_flush_retains_buffer
    ⟨⟨some ⟨4, 6, none, none, true⟩, 2⟩, [⟨1, 4, some "a.exe", none, false⟩], []⟩
    true 9 (Or.inl (by decide))

/-! ## Claim C4 -/

/-- C4 fails on the code: supplying only `end_time` bypasses the
validation (which runs only when both bounds are in the same request),
so an update that makes the stored interval satisfy
`end_time <= start_time` is accepted and applied instead of being
rejected with a validation error. -/
theorem c4_counterexample :
    update_event_endpoint [⟨1, 100, 200, none, none, false⟩] 1
        ⟨none, some 50, none, none, none⟩
      = .ok ([⟨1, 100, 50, none, none, false⟩], ⟨1, 100, 50, none, none, false⟩) := rfl

/-- C4 (amended): the endpoint rejects an update with a validation
error — leaving the store untouched — exactly in the case where both
`start_time` and `end_time` are supplied in the same request with
`end_time <= start_time`; when only one bound is supplied, no check
against the stored value is made and the update is applied. -/
theorem c4_amended_validation_both_bounds (db : List EventRow) (event_id st et : Nat)
    (u : EventUpdate) (hst : u.start_time = some st) (het : u.end_time = some et)
    (hle : et ≤ st) :
    update_event_endpoint db event_id u = .error .validation := by
  unfold update_event_endpoint
  rw [hst, het]
  simp [hle]

/-- Witness for the amended C4 at a concrete request. -/
theorem c4_amended_witness :
    update_event_endpoint [] 1 ⟨some 5, some 3, none, none, none⟩ = .error .validation :=
  c4_amended_validation_both_bounds [] 1 5 3 ⟨some 5, some 3, none, none, none⟩
    rfl rfl (by decide)

/-! ## Claim C10 -/

/-- C10: `update_event` with no supplied field returns successfully
with the table unchanged (no `UPDATE` is issued), even for an id with
no matching row; and the not-found `ValueError` is raised exactly when
at least one field is supplied and the `UPDATE` matches zero rows. -/
theorem c10_empty_update_is_noop (db : List EventRow) (event_id : Nat) (u : EventUpdate) :
    update_event db event_id EventUpdate.empty = .ok db
      ∧ (update_event db event_id u = .error ()
          ↔ (u.numFields ≠ 0 ∧ db.countP (fun r => r.id == event_id) = 0)) := by
  constructor
  · rfl
  · unfold update_event
    by_cases h0 : u.numFields = 0
    · simp [h0]
    · by_cases hcnt : db.countP (fun r => r.id == event_id) = 0 <;> simp [h0, hcnt]

/-- Witness for C10 at a concrete table and payload. -/
theorem c10_witness :
    update_event [] 5 EventUpdate.empty = .ok []
      ∧ (update_event [] 5 ⟨some 1, none, none, none, none⟩ = .error ()
          ↔ ((⟨some 1, none, none, none, none⟩ : EventUpdate).numFields ≠ 0
              ∧ ([] : List EventRow).countP (fun r => r.id == 5) = 0)) :=
  c10_empty_update_is_noop [] 5 ⟨some 1, none, none, none, none⟩

/-! ## Claim C9 -/

/-- Membership in a dict after an insert: either an original entry or
the inserted binding. -/
lemma dictInsert_mem (d : Lookup) (k : Option String × Option String) (v : String)
    (kv : (Option String × Option String) × String) (h : kv ∈ dictInsert d k v) :
    kv ∈ d ∨ kv = (k, v) := by
  unfold dictInsert at h
  by_cases hany : List.any d (fun e => e.1 == k)
  · rw [if_pos hany] at h
    obtain ⟨e, he, hfe⟩ := List.mem_map.mp h
    by_cases hek : e.1 == k
    · rw [if_pos hek] at hfe
      exact Or.inr hfe.symm
    · rw [if_neg hek] at hfe
      exact Or.inl (hfe ▸ he)
  · rw [if_neg hany] at h
    rcases List.mem_append.mp h with h | h
    · exact Or.inl h
    · exact Or.inr (List.mem_singleton.mp h)

/-- Every project name stored in the lookup built by
`_build_project_lookup` is non-empty (blank projects are skipped before
insertion). -/
lemma build_project_lookup_values_ne (rows : List MappingRow) :
    ∀ kv ∈ build_project_lookup rows, kv.2 ≠ "" := by
  unfold build_project_lookup
  have haux : ∀ (rs : List MappingRow) (acc : Lookup), (∀ kv ∈ acc, kv.2 ≠ "") →
      ∀ kv ∈ rs.foldl
          (fun lookup row =>
            let process_key := normalize_process_name row.process_name
            let title_key := titleKey row.window_title
            let project_name := String.mk (pyStrip row.project_name.toList)
            if project_name = "" then lookup
            else dictInsert lookup (process_key, title_key) project_name) acc,
        kv.2 ≠ "" := by
    intro rs
    induction rs with
    | nil => intro acc hacc; simpa using hacc
    | cons r rs ih =>
      intro acc hacc
      rw [List.foldl_cons]
      apply ih
      intro kv hkv
      by_cases hp : String.mk (pyStrip r.project_name.toList) = ""
      · simp only [hp, if_pos] at hkv
        exact hacc kv hkv
      · simp only [hp, if_neg, ite_false] at hkv
        rcases dictInsert_mem _ _ _ kv hkv with h | h
        · exact hacc kv h
        · rw [h]
          exact hp
  exact haux rows [] (by simp)

/-- A hit in the built lookup is never the empty string. -/
lemma lookupGet_build_ne (rows : List MappingRow) (k : Option String × Option String)
    (v : String) (h : lookupGet (build_project_lookup rows) k = some v) : v ≠ "" := by
  unfold lookupGet at h
  obtain ⟨e, he, hev⟩ := Option.map_eq_some'.mp h
  exact hev ▸ build_project_lookup_values_ne rows e (List.mem_of_find?_eq_some he)

/-- The resolution order C9 states, written from the claim's words:
first the exact `(process_key, title_key)` pair, then the process-only
key, then the title-only key; absent when nothing matches. -/
def resolve_project_spec (lookup : Lookup) (process_name window_title : Option String) :
    Option String :=
  let process_key := normalize_process_name process_name
  let title_key := titleKey window_title
  match lookupGet lookup (process_key, title_key) with
  | some project => some project
  | none =>
    match lookupGet lookup (process_key, none) with
    | some project => some project
    | none => lookupGet lookup (none, title_key)

/-- C9: on any lookup built from mapping rows, the `overview` bucket
project of a non-idle bucket follows exactly the claimed precedence
(exact, then process-only, then title-only, else absent), and an idle
bucket is never resolved. -/
theorem c9_resolution_precedence (rows : List MappingRow) (pn wt : Option String)
    (idle : Bool) :
    bucket_project (build_project_lookup rows) pn wt idle
      = if idle then none
        else resolve_project_spec (build_project_lookup rows) pn wt := by
  unfold bucket_project
  cases idle with
  | true => rfl
  | false =>
    show resolve_project (build_project_lookup rows) pn wt
        = resolve_project_spec (build_project_lookup rows) pn wt
    unfold resolve_project resolve_project_spec
    cases h1 : lookupGet (build_project_lookup rows)
        (normalize_process_name pn, titleKey wt) with
    | some p1 =>
      have hne := lookupGet_build_ne rows _ _ h1
      simp [firstTruthy, h1, hne]
    | none =>
      cases h2 : lookupGet (build_project_lookup rows)
          (normalize_process_name pn, none) with
      | some p2 =>
        have hne := lookupGet_build_ne rows _ _ h2
        simp [firstTruthy, h1, h2, hne]
      | none =>
        cases h3 : lookupGet (build_project_lookup rows)
            (none, titleKey wt) with
        | some p3 =>
          have hne := lookupGet_build_ne rows _ _ h3
          simp [firstTruthy, h1, h2, h3, hne]
        | none => simp [firstTruthy, h1, h2, h3]
